import Mathlib

/-!
Shallow embedding of the `dataset-xschema` repository
(`src/dataset_xschema/util.py` and `src/dataset_xschema/table.py`).

The embedding translates the Python source line by line:
pure helpers become Lean functions, methods that mutate the table wrapper
become explicit state-passing functions returning the result together with
the final state (so that mutations made before an exception is raised are
kept, as they are in Python), and raising becomes `Except`.

External collaborators that are not part of this repository are modelled:
* the `dataset` storage backend (record persistence and querying) is a
  `List Record` with the obvious insert/update/delete semantics;
* Python's `unicodedata.normalize("NFKD", ·)` and `dateutil.parser.parse`
  are parameters of an `Env` structure, since their behaviour is external
  to the repository;
* `os.getenv` toggles are boolean fields of `Env`.

The `constraint` and `exception` modules of this repository are not under
`src/`; the definitions that stand for them are modelled from the spec and
say so in their doc comments.
-/

deriving instance DecidableEq for Except

namespace XSchema

/-- Python `type` tags for the scalar values this program manipulates
(`int`, `float`, `str`, `datetime.datetime`, `datetime.date`). -/
inductive PyType where
  | int
  | float
  | str
  | datetime
  | date
deriving DecidableEq, Repr

/-- Model of `datetime.datetime`: a day index and a seconds-of-day count.
Only the structure matters to the program (classification, the
`datetime.combine` call, `isoformat`), never actual calendar arithmetic. -/
structure PyDateTime where
  day : Int
  sec : Nat
deriving DecidableEq, Repr

/-- A raw scalar value as stored in a record.  Floats never participate in
arithmetic in this program, so a float is carried as its source text. -/
inductive Val where
  | str (s : String)
  | int (n : Int)
  | float (s : String)
  | datetime (d : PyDateTime)
  | date (day : Int)
deriving DecidableEq, Repr

/-- Python `type(x)` on a `Val`. -/
def pyTypeOf : Val → PyType
  | .str _ => .str
  | .int _ => .int
  | .float _ => .float
  | .datetime _ => .datetime
  | .date _ => .date

/-- Python `str(t)` on a type object, e.g. `str(int) = "<class \x27int\x27>"`. -/
def pyTypeStr : PyType → String
  | .int => "<class \x27int\x27>"
  | .float => "<class \x27float\x27>"
  | .str => "<class \x27str\x27>"
  | .datetime => "<class \x27datetime.datetime\x27>"
  | .date => "<class \x27datetime.date\x27>"

/-- Model of `datetime.isoformat`. The exact text is irrelevant to the
program; only that date/time values render to a string. -/
def isoformat (d : PyDateTime) : String :=
  toString d.day ++ "T" ++ toString d.sec

/-- A record: one row, a mapping from column names to scalar values,
iterated in insertion order like a Python `dict`. -/
abbrev Record := List (String × Val)

/-- Python `str.strip()`: drop leading and trailing whitespace. -/
def pyStrip (s : String) : String :=
  ⟨((s.data.dropWhile Char.isWhitespace).reverse.dropWhile Char.isWhitespace).reverse⟩

/-- Python `str.isdigit()` restricted to the decimal digits that survive
NFKD normalization: nonempty and all characters decimal digits. -/
def pyIsDigit (s : String) : Bool :=
  !s.data.isEmpty && s.data.all Char.isDigit

/-- Python `str.replace(".", "", 1)`: remove the first occurrence of a
character. -/
def removeFirst (c : Char) : List Char → List Char
  | [] => []
  | x :: xs => if x = c then xs else x :: removeFirst c xs

/-- `s.replace(".", "", 1)` on strings. -/
def removeFirstDot (s : String) : String :=
  ⟨removeFirst '.' s.data⟩

/-- Python `int(s)` on an all-digit string. -/
def digitsToInt (s : String) : Int :=
  Int.ofNat (s.data.foldl (fun n c => n * 10 + (c.toNat - 48)) 0)

/-- The ambient process state of `util.py` / `table.py`:
`unicodedata.normalize("NFKD", ·)`, `dateutil.parser.parse` (returning
`none` when it raises `ValueError`), and the two environment toggles
`TINYDB_DATETIME` and `XSCHEMA_SANITIZE`. -/
structure Env where
  nfkd : String → String
  dateparse : String → Option PyDateTime
  tinydb_datetime : Bool
  xschema_sanitize : Bool

/-- The per-value body of `parse_record` (util.py lines 32-48): the string
classification pipeline guarded by `TINYDB_DATETIME`, followed by the
`isinstance(v, date)` promotion through `datetime.combine` (which, because
`datetime` is a subclass of `date`, also truncates an already-`datetime`
value to midnight).  Returns `none` when the field is skipped by the
`continue` for the empty string or lone hyphen. -/
def normalizeValue (env : Env) (v : Val) : Option Val :=
  let step1 : Option Val :=
    if env.tinydb_datetime then
      match v with
      | .str s0 =>
        let s := env.nfkd (pyStrip s0)
        if pyIsDigit s then some (.int (digitsToInt s))
        else if s.data.contains '.' && pyIsDigit (removeFirstDot s) then some (.float s)
        else if s = "" ∨ s = "-" then none
        else
          match env.dateparse s with
          | some d => some (.datetime d)
          | none => some (.str s)
      | w => some w
    else some v
  step1.map fun w =>
    match w with
    | .date day => .datetime ⟨day, 0⟩
    | .datetime d => .datetime ⟨d.day, 0⟩
    | u => u

/-- The `yield_ = \x27record\x27` switch of `parse_record`: value-preserving
except that date/time values render to their `isoformat` string. -/
def renderValue : Val → Val
  | .datetime d => .str (isoformat d)
  | .date day => .str (toString day)
  | w => w

/-- `dict(parse_record(record, yield_=\x27type\x27))` as an association list:
each field is classified and its Python type yielded; skipped fields are
absent. -/
def parseRecordType (env : Env) (r : Record) : List (String × PyType) :=
  r.filterMap fun kv => (normalizeValue env kv.2).map fun nv => (kv.1, pyTypeOf nv)

/-- `dict(parse_record(record, yield_=\x27record\x27))` as an association
list: each field is classified and rendered; skipped fields are absent. -/
def parseRecordRecord (env : Env) (r : Record) : Record :=
  r.filterMap fun kv => (normalizeValue env kv.2).map fun nv => (kv.1, renderValue nv)

/-- First-match association-list lookup, Python `dict.get` /
`dict.__getitem__`. -/
def alookup {β : Type} : List (String × β) → String → Option β
  | [], _ => none
  | (k, b) :: rest, key => if k = key then some b else alookup rest key

/-- Association-list store, Python `dict.__setitem__`: overwrite the first
binding of the key, or append a new binding. -/
def astore {β : Type} : List (String × β) → String → β → List (String × β)
  | [], key, b => [(key, b)]
  | (k, x) :: rest, key, b =>
      if k = key then (key, b) :: rest else (k, x) :: astore rest key b

/-- The exception classes of the `exception` module.  Modelled from the
spec: that module is not under `src/`; each constructor stands for one
exception class, carrying the data interpolated into its message
(`NonUniformTypeException` from `refresh` names the observed and expected
tags; the one from `_sanitize_multiple` names only the observed tag;
`NotNullException` names every missing column; `NotUniqueException` names
the duplicate entry and its column).  `storage` is the opaque error of the
external storage collaborator and `assertionFailed` a Python
`AssertionError`. -/
inductive Exc where
  | nonUniform (observed expected : PyType)
  | nonUniformSanitize (observed : PyType)
  | notNull (missing : List String)
  | notUnique (dup : PyType) (col : String)
  | assertionFailed
  | storage
deriving DecidableEq, Repr

/-- A caller-supplied schema declaration for one column, as accepted by
`update_schema`.  Modelled from the spec (§4.2, §6): either a bare type
tag, or a constraint record carrying an optional type tag, a not-null
flag and a uniqueness flag. -/
inductive SchemaDecl where
  | ofType (t : PyType)
  | ofConstraint (t : Option PyType) (nn : Bool) (uniq : Bool)
deriving DecidableEq, Repr

/-- The schema state container of the `constraint` module.  Modelled from
the spec (§3): `type_` maps a column to its single established tag,
`not_null` is the set of required columns, and `preexisting` maps each
column under uniqueness tracking to the set of entries previously yielded
for it by `parse_record(·, yield_=\x27type\x27)` (the code in table.py
stores exactly those, hence `Finset PyType`). -/
structure ConstraintMapping where
  type_ : List (String × PyType)
  not_null : List String
  preexisting : List (String × Finset PyType)
deriving DecidableEq

/-- `ConstraintMapping()`: created empty. Modelled from the spec (§3). -/
def ConstraintMapping.empty : ConstraintMapping := ⟨[], [], []⟩

/-- `ConstraintMapping.update`: merge caller-supplied declarations into the
current state.  Modelled from the spec (§4.2): type tags overwrite,
a not-null flag adds the column to the required set, a uniqueness flag
starts an empty seen-set for a column not yet tracked. -/
def ConstraintMapping.update (cm : ConstraintMapping)
    (decls : List (String × SchemaDecl)) : ConstraintMapping :=
  decls.foldl (fun cm kd =>
    match kd.2 with
    | .ofType t => { cm with type_ := astore cm.type_ kd.1 t }
    | .ofConstraint t nn uniq =>
        let cm := match t with
          | some t => { cm with type_ := astore cm.type_ kd.1 t }
          | none => cm
        let cm := if nn ∧ kd.1 ∉ cm.not_null
          then { cm with not_null := cm.not_null ++ [kd.1] } else cm
        if uniq ∧ (alookup cm.preexisting kd.1).isNone
          then { cm with preexisting := astore cm.preexisting kd.1 ∅ } else cm)
    cm

/-- The transient type representation inside a report snapshot: a bare tag
in steady state, a list of tags while a report is being accumulated. -/
inductive TagRep where
  | single (t : PyType)
  | list (ts : List PyType)
deriving DecidableEq, Repr

/-- One column of a schema snapshot as produced by
`ConstraintMapping.view`.  Modelled from the spec (§4.2, §6): the type
representation together with the not-null and uniqueness flags. -/
structure ColView where
  type_ : Option TagRep
  not_null : Bool
  unique : Bool
deriving DecidableEq, Repr

/-- `ConstraintMapping.view()`: a read-only snapshot combining, per column,
its type tag and applicable flags.  Modelled from the spec (§4.2). -/
def ConstraintMapping.view (cm : ConstraintMapping) : List (String × ColView) :=
  ((cm.type_.map Prod.fst ++ cm.not_null ++ cm.preexisting.map Prod.fst).dedup).map
    fun k =>
      (k, ⟨(alookup cm.type_ k).map .single, k ∈ cm.not_null,
           (alookup cm.preexisting k).isSome⟩)

/-- The state of one `XSchemaTable` wrapper: the records held by the
delegated storage collaborator, and the wrapper's own
`constraint_mapping`. -/
structure TableState where
  storage : List Record
  cm : ConstraintMapping
deriving DecidableEq

/-- The `output_mapping` of `refresh` (table.py lines 36-38): a deep copy
of the constraint mapping on which `type_` entries transiently become
lists of observed tags. -/
structure OutMapping where
  type_ : List (String × TagRep)
  not_null : List String
  preexisting : List (String × Finset PyType)
deriving DecidableEq

/-- `deepcopy(self.constraint_mapping)` as the initial output mapping. -/
def initOut (cm : ConstraintMapping) : OutMapping :=
  ⟨cm.type_.map (fun kt => (kt.1, .single kt.2)), cm.not_null, cm.preexisting⟩

/-- table.py lines 50-57: fetch the accumulated type list for `k` (a bare
tag is wrapped into a singleton list), append `v` if absent, store back. -/
def accumOut (om : OutMapping) (k : String) (v : PyType) : OutMapping :=
  let tl : List PyType :=
    match alookup om.type_ k with
    | none => []
    | some (.single t) => [t]
    | some (.list ts) => ts
  let tl := if v ∈ tl then tl else tl ++ [v]
  { om with type_ := astore om.type_ k (.list tl) }

/-- table.py lines 41-57, the per-record type loop of `refresh`: for every
classified field, compare with the established type; a differing
observation is accepted as `str` when the established type is `str` and
the observation `int` or `float`, and otherwise raises
`NonUniformTypeException` naming the observed and expected tags; in report
mode the (possibly widened) observation is accumulated. -/
def refreshTypeLoop (cm : ConstraintMapping) :
    Option OutMapping → List (String × PyType) → Except Exc (Option OutMapping)
  | om, [] => .ok om
  | om, (k, v) :: rest =>
    match alookup cm.type_ k with
    | some e =>
      if v ≠ e then
        if e = .str ∧ (v = .int ∨ v = .float) then
          refreshTypeLoop cm (om.map (accumOut · k .str)) rest
        else .error (.nonUniform v e)
      else refreshTypeLoop cm (om.map (accumOut · k v)) rest
    | none => refreshTypeLoop cm (om.map (accumOut · k v)) rest

/-- table.py lines 59-63: render the record and collect every required
column absent from it; raise `NotNullException` naming all of them when
any is missing. -/
def refreshNullCheck (cm : ConstraintMapping) (env : Env) (r : Record) : Except Exc Unit :=
  let rendered := parseRecordRecord env r
  let missing := cm.not_null.filter fun c => ¬ (rendered.map Prod.fst).contains c
  if missing.isEmpty then .ok () else .error (.notNull missing)

/-- One record of the `refresh` scan: type loop, then null check. -/
def refreshRecord (env : Env) (cm : ConstraintMapping) (om : Option OutMapping)
    (r : Record) : Except Exc (Option OutMapping) :=
  match refreshTypeLoop cm om (parseRecordType env r) with
  | .error e => .error e
  | .ok om' =>
    match refreshNullCheck cm env r with
    | .error e => .error e
    | .ok _ => .ok om'

/-- table.py line 40: `for record in self.all(): ...`. -/
def refreshRecords (env : Env) (cm : ConstraintMapping) :
    Option OutMapping → List Record → Except Exc (Option OutMapping)
  | om, [] => .ok om
  | om, r :: rs =>
    match refreshRecord env cm om r with
    | .error e => .error e
    | .ok om' => refreshRecords env cm om' rs

/-- table.py lines 66-68: collapse every singleton type list back to a
bare tag before the report is returned. -/
def collapseOut (om : OutMapping) : OutMapping :=
  { om with type_ := om.type_.map fun kt =>
      match kt.2 with
      | .list [t] => (kt.1, .single t)
      | v => (kt.1, v) }

/-- `view()` on the output mapping.  Modelled from the spec (§4.2), like
`ConstraintMapping.view`. -/
def OutMapping.view (om : OutMapping) : List (String × ColView) :=
  ((om.type_.map Prod.fst ++ om.not_null ++ om.preexisting.map Prod.fst).dedup).map
    fun k =>
      (k, ⟨alookup om.type_ k, k ∈ om.not_null, (alookup om.preexisting k).isSome⟩)

/-- `XSchemaTable.refresh(output)` (table.py lines 21-70): scan every
stored record, enforcing the type and not-null constraints; in report mode
return the accumulated snapshot.  It reads, but never writes, the table's
own constraint mapping (only the deep copy accumulates), so the state is
returned unchanged. -/
def refreshFull (env : Env) (output : Bool) (st : TableState) :
    Except Exc (Option (List (String × ColView))) × TableState :=
  let om0 := if output then some (initOut st.cm) else none
  match refreshRecords env st.cm om0 st.storage with
  | .error e => (.error e, st)
  | .ok om' => (.ok (om'.map fun m => (collapseOut m).view), st)

/-- table.py lines 193-199, the loop of `_update_uniqueness`: for every
field yielded by `parse_record(record_dict, yield_=\x27type\x27)`, a column
under uniqueness tracking whose seen-set already holds the yielded entry
raises `NotUniqueException`; otherwise the entry is added.  Mutations made
before a raise are kept, as in Python. -/
def updateUniqLoop : ConstraintMapping → List (String × PyType) →
    Except Exc Unit × ConstraintMapping
  | cm, [] => (.ok (), cm)
  | cm, (k, t) :: rest =>
    match alookup cm.preexisting k with
    | none => updateUniqLoop cm rest
    | some s =>
      if t ∈ s then (.error (.notUnique t k), cm)
      else updateUniqLoop { cm with preexisting := astore cm.preexisting k (insert t s) } rest

/-- `XSchemaTable._update_uniqueness`. -/
def updateUniqueness (env : Env) (r : Record) (cm : ConstraintMapping) :
    Except Exc Unit × ConstraintMapping :=
  updateUniqLoop cm (parseRecordType env r)

/-- table.py lines 201-205, `_remove_uniqueness`: best-effort removal of
the record's yielded entries from the tracked seen-sets. -/
def removeUniqLoop : ConstraintMapping → List (String × PyType) → ConstraintMapping
  | cm, [] => cm
  | cm, (k, t) :: rest =>
    match alookup cm.preexisting k with
    | none => removeUniqLoop cm rest
    | some s =>
      if t ∈ s then
        removeUniqLoop { cm with preexisting := astore cm.preexisting k (s.erase t) } rest
      else removeUniqLoop cm rest

/-- `XSchemaTable._remove_uniqueness`. -/
def removeUniqueness (env : Env) (r : Record) (cm : ConstraintMapping) : ConstraintMapping :=
  removeUniqLoop cm (parseRecordType env r)

/-- Key matching of the external `dataset` collaborator's
`update`/`upsert`/`insert_ignore`: a stored record matches when it agrees
with the row on every listed key column. -/
def recMatchesKeys (keys : List String) (row r : Record) : Bool :=
  keys.all fun k => alookup r k == alookup row k

/-- The external collaborator's update of one matched record: the row's
columns overwrite the record's. -/
def mergeRow (r row : Record) : Record :=
  row.foldl (fun acc kv => astore acc kv.1 kv.2) r

/-- Predicate matching of the external collaborator's `find`/`delete`:
conjunctive equality filters on raw stored values. -/
def matchesFilter (flt : List (String × Val)) (r : Record) : Bool :=
  flt.all fun kv => alookup r kv.1 == some kv.2

/-- `XSchemaTable.insert` (table.py lines 72-74): uniqueness check first,
then delegate; on a raise the storage is untouched but the mapping keeps
the additions made before the raise. -/
def insertOne (env : Env) (row : Record) (st : TableState) :
    Except Exc Unit × TableState :=
  match updateUniqueness env row st.cm with
  | (.error e, cm') => (.error e, ⟨st.storage, cm'⟩)
  | (.ok _, cm') => (.ok (), ⟨st.storage ++ [row], cm'⟩)

/-- `XSchemaTable.insert_ignore` (table.py lines 76-78): uniqueness check,
then the collaborator inserts only when no stored record matches the
keys. -/
def insertIgnore (env : Env) (row : Record) (keys : List String) (st : TableState) :
    Except Exc Unit × TableState :=
  match updateUniqueness env row st.cm with
  | (.error e, cm') => (.error e, ⟨st.storage, cm'⟩)
  | (.ok _, cm') =>
    if st.storage.any (recMatchesKeys keys row) then (.ok (), ⟨st.storage, cm'⟩)
    else (.ok (), ⟨st.storage ++ [row], cm'⟩)

/-- table.py lines 81-82: the per-row uniqueness loop of `insert_many`,
run over the whole batch before anything is delegated. -/
def updateUniqAll (env : Env) : List Record → ConstraintMapping →
    Except Exc Unit × ConstraintMapping
  | [], cm => (.ok (), cm)
  | r :: rs, cm =>
    match updateUniqueness env r cm with
    | (.ok _, cm') => updateUniqAll env rs cm'
    | (.error e, cm') => (.error e, cm')

/-- `XSchemaTable.insert_many` (table.py lines 80-83). -/
def insertMany (env : Env) (rows : List Record) (st : TableState) :
    Except Exc Unit × TableState :=
  match updateUniqAll env rows st.cm with
  | (.error e, cm') => (.error e, ⟨st.storage, cm'⟩)
  | (.ok _, cm') => (.ok (), ⟨st.storage ++ rows, cm'⟩)

/-- `XSchemaTable.update` (table.py lines 85-87): uniqueness check on the
incoming row, then the collaborator overwrites every record matching the
row on the key columns. -/
def updateRow (env : Env) (row : Record) (keys : List String) (st : TableState) :
    Except Exc Unit × TableState :=
  match updateUniqueness env row st.cm with
  | (.error e, cm') => (.error e, ⟨st.storage, cm'⟩)
  | (.ok _, cm') =>
    (.ok (), ⟨st.storage.map fun r => if recMatchesKeys keys row r then mergeRow r row else r, cm'⟩)

/-- `XSchemaTable.upsert` (table.py lines 89-91). -/
def upsertRow (env : Env) (row : Record) (keys : List String) (st : TableState) :
    Except Exc Unit × TableState :=
  match updateUniqueness env row st.cm with
  | (.error e, cm') => (.error e, ⟨st.storage, cm'⟩)
  | (.ok _, cm') =>
    if st.storage.any (recMatchesKeys keys row) then
      (.ok (), ⟨st.storage.map fun r => if recMatchesKeys keys row r then mergeRow r row else r, cm'⟩)
    else (.ok (), ⟨st.storage ++ [row], cm'⟩)

/-- Events observable in the control flow of `delete`. -/
inductive Ev where
  | delegatedDelete
  | refreshRun
deriving DecidableEq, Repr

/-- The outcome of `delete`: its result, the final wrapper state, and the
trace of the delegated removal and reconciling refresh in the order they
ran. -/
structure DeleteOutcome where
  res : Except Exc Nat
  state : TableState
  trace : List Ev
deriving DecidableEq

/-- table.py lines 94-95: `for record in self.find(...):
self._remove_uniqueness(record)`. -/
def removeAllSeen (env : Env) (flt : List (String × Val)) (st : TableState) : TableState :=
  ⟨st.storage, (st.storage.filter (matchesFilter flt)).foldl
      (fun cm r => removeUniqueness env r cm) st.cm⟩

/-- The external collaborator's `delete`: remove every matching record, or
raise an opaque storage error when `fail` is set. -/
def delegatedDeleteOp (flt : List (String × Val)) (fail : Bool) (st : TableState) :
    Except Exc (Nat × TableState) :=
  if fail then .error .storage
  else
    let kept := st.storage.filter fun r => !matchesFilter flt r
    .ok (st.storage.length - kept.length, ⟨kept, st.cm⟩)

/-- `XSchemaTable.delete` (table.py lines 93-100): best-effort seen-set
removal for every matching record, then `try: return super().delete(...)
finally: self.refresh()` — the reconciling refresh runs whether or not the
delegated removal raised, and an exception raised by the refresh replaces
the one in flight, as Python's `finally` does. -/
def deleteRows (env : Env) (flt : List (String × Val)) (fail : Bool) (st : TableState) :
    DeleteOutcome :=
  let st1 := removeAllSeen env flt st
  match delegatedDeleteOp flt fail st1 with
  | .ok (n, st2) =>
    match (refreshFull env false st2).1 with
    | .ok _ => ⟨.ok n, st2, [.delegatedDelete, .refreshRun]⟩
    | .error e2 => ⟨.error e2, st2, [.delegatedDelete, .refreshRun]⟩
  | .error e =>
    match (refreshFull env false st1).1 with
    | .ok _ => ⟨.error e, st1, [.delegatedDelete, .refreshRun]⟩
    | .error e2 => ⟨.error e2, st1, [.delegatedDelete, .refreshRun]⟩

/-- `XSchemaTable.get_schema` (table.py lines 123-136). -/
def getSchema (env : Env) (refresh : Bool) (st : TableState) :
    Except Exc (Option (List (String × ColView))) × TableState :=
  if refresh then refreshFull env true st
  else (.ok (some st.cm.view), st)

/-- The `schema` setter (table.py lines 112-121): replace the mapping with
a fresh empty one, then merge the caller's declarations. -/
def setSchema (decls : List (String × SchemaDecl)) (st : TableState) : TableState :=
  ⟨st.storage, ConstraintMapping.empty.update decls⟩

/-- `XSchemaTable.__init__` (table.py lines 12-19): a fresh empty mapping
over the collaborator's existing records, then an initial silent
refresh. -/
def constructTable (env : Env) (stor : List Record) : Except Exc Unit × TableState :=
  let st : TableState := ⟨stor, ConstraintMapping.empty⟩
  ((refreshFull env false st).1.map fun _ => (), st)

/-- A value as it appears in a record returned by `_sanitize_multiple`:
either an actual scalar or a Python type object (the code yields type
objects because it re-parses the record with `yield_=\x27type\x27`). -/
inductive PyObj where
  | val (v : Val)
  | typ (t : PyType)
deriving DecidableEq, Repr

/-- `self.update_schema(record_schema)` as called inside
`_sanitize_multiple`: the record's classified tags merged as type
declarations. -/
def cmUpdateTypes (cm : ConstraintMapping) (rs : List (String × PyType)) : ConstraintMapping :=
  cm.update (rs.map fun kt => (kt.1, .ofType kt.2))

/-- table.py lines 161-171, the field loop of `_sanitize_multiple`: check
each classified field against the established type, collecting in
`num_to_str` the columns widened from `int`/`float` to an established
`str`; any other conflict raises; `update_schema(record_schema)` runs on
every iteration that does not raise. -/
def sanitizeFieldLoop (rs : List (String × PyType)) :
    ConstraintMapping → List String → List (String × PyType) →
    Except Exc (List String) × ConstraintMapping
  | cm, acc, [] => (.ok acc, cm)
  | cm, acc, (k, v) :: rest =>
    match alookup cm.type_ k with
    | some e =>
      if v ≠ e then
        if e = .str ∧ (v = .int ∨ v = .float) then
          let acc := if k ∈ acc then acc else acc ++ [k]
          sanitizeFieldLoop rs (cmUpdateTypes cm rs) acc rest
        else (.error (.nonUniformSanitize v), cm)
      else sanitizeFieldLoop rs (cmUpdateTypes cm rs) acc rest
    | none => sanitizeFieldLoop rs (cmUpdateTypes cm rs) acc rest

/-- One record of `_sanitize_multiple._records` (table.py lines 158-178):
the field loop, then `record = dict(parse_record(record,
yield_=\x27type\x27))` re-parsed in type mode, with the `num_to_str`
columns replaced by `str(v)` of the yielded entry. -/
def sanitizeRecordOne (env : Env) (cm : ConstraintMapping) (r : Record) :
    Except Exc (List (String × PyObj)) × ConstraintMapping :=
  let rs := parseRecordType env r
  match sanitizeFieldLoop rs cm [] rs with
  | (.error e, cm') => (.error e, cm')
  | (.ok numToStr, cm') =>
    let rec2 := parseRecordType env r
    (.ok (rec2.map fun kt =>
        (kt.1, if kt.1 ∈ numToStr then PyObj.val (.str (pyTypeStr kt.2)) else PyObj.typ kt.2)),
     cm')

/-- `list(_records())`: the records generator consumed in order, schema
learning carrying across the batch; mutations before a raise persist. -/
def sanitizeRecordsLoop (env : Env) :
    ConstraintMapping → List Record →
    Except Exc (List (List (String × PyObj))) × ConstraintMapping
  | cm, [] => (.ok [], cm)
  | cm, r :: rs =>
    match sanitizeRecordOne env cm r with
    | (.error e, cm') => (.error e, cm')
    | (.ok out, cm') =>
      match sanitizeRecordsLoop env cm' rs with
      | (.error e, cm'') => (.error e, cm'')
      | (.ok outs, cm'') => (.ok (out :: outs), cm'')

/-- table.py lines 182-183: `for c in self.get_schema(refresh=False).values():
assert not isinstance(c.type_, list)`. -/
def sanitizeAssertOk (cm : ConstraintMapping) : Bool :=
  cm.view.all fun kc =>
    match kc.2.type_ with
    | some (.list _) => false
    | _ => true

/-- `XSchemaTable._sanitize_multiple` (table.py lines 147-188): when the
`XSCHEMA_SANITIZE` toggle is enabled, refresh, assert no transient list
tags, and run the records generator; when disabled, return the batch
unmodified (raw values embedded as `PyObj.val`). -/
def sanitizeMultiple (env : Env) (records : List Record) (st : TableState) :
    Except Exc (List (List (String × PyObj))) × TableState :=
  if env.xschema_sanitize then
    match (refreshFull env false st).1 with
    | .error e => (.error e, st)
    | .ok _ =>
      if sanitizeAssertOk st.cm then
        match sanitizeRecordsLoop env st.cm records with
        | (.error e, cm') => (.error e, ⟨st.storage, cm'⟩)
        | (.ok outs, cm') => (.ok outs, ⟨st.storage, cm'⟩)
      else (.error .assertionFailed, st)
  else (.ok (records.map fun r => r.map fun kv => (kv.1, PyObj.val kv.2)), st)

/-- The set of classified tags currently present in a stored column,
written from the spec's words (§3: "the set of classified values
currently present in the table's column col") for comparison with the
`preexisting` bookkeeping. -/
def seenValuesInColumn (env : Env) (stor : List Record) (col : String) : Finset PyType :=
  stor.foldl
    (fun acc r =>
      match alookup (parseRecordType env r) col with
      | some t => insert t acc
      | none => acc) ∅

/-- A concrete ambient environment for witnesses: identity NFKD, a date
parser recognising a single date literal, both toggles enabled. -/
def env0 : Env where
  nfkd := id
  dateparse := fun s => if s = "2020-01-02" then some ⟨737426, 0⟩ else none
  tinydb_datetime := true
  xschema_sanitize := true

/-- `env0` with the `XSCHEMA_SANITIZE` toggle disabled. -/
def envOff : Env :=
  { env0 with xschema_sanitize := false }

/-- An empty table tracking uniqueness on column `id`. -/
def stUniq : TableState := ⟨[], ⟨[], [], [(("id"), ∅)]⟩⟩

/-- An empty table tracking uniqueness on columns `u1` (nothing seen) and
`u2` (an integer already seen). -/
def stTwoCols : TableState := ⟨[], ⟨[], [], [(("u1"), ∅), (("u2"), {PyType.int})]⟩⟩

/-- A table with one record whose `id` is an integer, uniqueness tracked on
`id` with the integer tag seen. -/
def stStale : TableState :=
  ⟨[[(("name"), Val.str ("a")), (("id"), Val.str ("1"))]],
   ⟨[(("name"), PyType.str), (("id"), PyType.int)], [], [(("id"), {PyType.int})]⟩⟩

/-- A one-record table with a unique integer `id` column. -/
def stDel : TableState :=
  ⟨[[(("id"), Val.str ("1"))]], ⟨[(("id"), PyType.int)], [], [(("id"), {PyType.int})]⟩⟩

/-- A table whose single record violates its own established type, so any
refresh over it raises. -/
def stBadType : TableState :=
  ⟨[[(("a"), Val.str ("x"))]], ⟨[(("a"), PyType.int)], [], []⟩⟩

/-- A well-typed one-record table with no tracked columns. -/
def stPlain : TableState :=
  ⟨[[(("a"), Val.str ("x"))]], ⟨[(("a"), PyType.str)], [], []⟩⟩

/-- An empty table whose column `a` is established as String. -/
def stSan : TableState := ⟨[], ⟨[(("a"), PyType.str)], [], []⟩⟩

theorem alookup_astore {β : Type} (l : List (String × β)) (k k' : String) (b : β) :
    alookup (astore l k b) k' = if k = k' then some b else alookup l k' := by
  induction l with
  | nil => by_cases h : k = k' <;> simp [astore, alookup, h]
  | cons hd tl ih =>
    obtain ⟨k0, b0⟩ := hd
    by_cases h0 : k0 = k
    · subst h0
      by_cases h : k0 = k' <;> simp [astore, alookup, h]
    · by_cases h1 : k0 = k'
      · subst h1
        have h2 : ¬ k = k0 := fun hh => h0 hh.symm
        simp [astore, h0, alookup, h2]
      · simp [astore, h0, alookup, h1, ih]

theorem alookup_mem {β : Type} {l : List (String × β)} {k : String} {b : β}
    (h : alookup l k = some b) : (k, b) ∈ l := by
  induction l with
  | nil => simp [alookup] at h
  | cons hd tl ih =>
    obtain ⟨k0, b0⟩ := hd
    by_cases h0 : k0 = k
    · subst h0
      simp [alookup] at h
      simp [h]
    · simp only [alookup, if_neg h0] at h
      exact List.mem_cons_of_mem _ (ih h)

theorem mem_parseRecordType {env : Env} {r : Record} {k : String} {v nv : Val}
    (hmem : (k, v) ∈ r) (hnorm : normalizeValue env v = some nv) :
    (k, pyTypeOf nv) ∈ parseRecordType env r := by
  unfold parseRecordType
  exact List.mem_filterMap.mpr ⟨(k, v), hmem, by simp [hnorm]⟩

theorem parseRecordType_single (env : Env) (k : String) (v nv : Val)
    (h : normalizeValue env v = some nv) :
    parseRecordType env [(k, v)] = [(k, pyTypeOf nv)] := by
  simp [parseRecordType, h]

theorem parseRecordType_pair (env : Env) (k1 k2 : String) (v1 nv1 v2 nv2 : Val)
    (h1 : normalizeValue env v1 = some nv1) (h2 : normalizeValue env v2 = some nv2) :
    parseRecordType env [(k1, v1), (k2, v2)] =
      [(k1, pyTypeOf nv1), (k2, pyTypeOf nv2)] := by
  simp [parseRecordType, h1, h2]

theorem normalizeValue_skip (env : Env) (henv : env.tinydb_datetime = true) (sv : String)
    (h : env.nfkd (pyStrip sv) = "" ∨ env.nfkd (pyStrip sv) = "-") :
    normalizeValue env (.str sv) = none := by
  have e1 : pyIsDigit ("") = false := rfl
  have e2 : (("" : String).data.contains '.') = false := rfl
  have e3 : pyIsDigit ("-") = false := rfl
  have e4 : (("-" : String).data.contains '.') = false := rfl
  rcases h with h | h <;>
    simp [normalizeValue, henv, h, e1, e2, e3, e4]

theorem parseRecordRecord_keys_subset (env : Env) (r : Record) (c : String)
    (hc : c ∈ (parseRecordRecord env r).map Prod.fst) : c ∈ r.map Prod.fst := by
  unfold parseRecordRecord at hc
  simp only [List.mem_map, List.mem_filterMap] at hc ⊢
  obtain ⟨p, ⟨q, hq, hmap⟩, hfst⟩ := hc
  cases hnv : normalizeValue env q.2 with
  | none => rw [hnv] at hmap; simp at hmap
  | some nv =>
    rw [hnv] at hmap
    simp at hmap
    refine ⟨q, hq, ?_⟩
    rw [← hmap] at hfst
    exact hfst

theorem mem_keys_parseRecordRecord (env : Env) (r : Record) (c : String)
    (hc : c ∈ (parseRecordRecord env r).map Prod.fst) :
    ∃ v', (c, v') ∈ r ∧ normalizeValue env v' ≠ none := by
  unfold parseRecordRecord at hc
  simp only [List.mem_map, List.mem_filterMap] at hc
  obtain ⟨p, ⟨q, hq, hmap⟩, hfst⟩ := hc
  cases hnv : normalizeValue env q.2 with
  | none => rw [hnv] at hmap; simp at hmap
  | some nv =>
    rw [hnv] at hmap
    simp at hmap
    refine ⟨q.2, ?_, by simp [hnv]⟩
    have hq1 : q.1 = c := by rw [← hmap] at hfst; exact hfst
    rw [← hq1]
    exact hq

theorem alookup_eq_of_nodup {r : Record} {c : String} {v' : Val}
    (hnodup : (r.map Prod.fst).Nodup) (hmem : (c, v') ∈ r) :
    alookup r c = some v' := by
  induction r with
  | nil => simp at hmem
  | cons hd tl ih =>
    obtain ⟨k0, v0⟩ := hd
    simp only [List.map_cons, List.nodup_cons] at hnodup
    rcases List.mem_cons.mp hmem with heq | htl
    · obtain ⟨h1, h2⟩ := Prod.mk.injEq .. ▸ heq.symm
      simp [alookup, h1, h2]
    · have hc : c ∈ tl.map Prod.fst :=
        List.mem_map.mpr ⟨(c, v'), htl, rfl⟩
      have h0 : k0 ≠ c := fun hh => hnodup.1 (hh ▸ hc)
      simp only [alookup, if_neg h0]
      exact ih hnodup.2 htl

theorem key_skipped_absent (env : Env) (r : Record) (c : String) (v : Val)
    (hnodup : (r.map Prod.fst).Nodup) (hlk : alookup r c = some v)
    (hskip : normalizeValue env v = none) :
    c ∉ (parseRecordRecord env r).map Prod.fst := by
  intro hmem
  obtain ⟨v', hv'mem, hv'some⟩ := mem_keys_parseRecordRecord env r c hmem
  have heq := alookup_eq_of_nodup hnodup hv'mem
  rw [hlk] at heq
  have : v' = v := by injection heq.symm
  rw [this] at hv'some
  exact hv'some hskip

theorem updateUniqueness_fresh (env : Env) (k : String) (v nv : Val)
    (cm : ConstraintMapping) (s : Finset PyType)
    (hnorm : normalizeValue env v = some nv)
    (htrk : alookup cm.preexisting k = some s) (hfresh : pyTypeOf nv ∉ s) :
    updateUniqueness env [(k, v)] cm =
      (.ok (), { cm with preexisting := astore cm.preexisting k (insert (pyTypeOf nv) s) }) := by
  unfold updateUniqueness
  rw [parseRecordType_single env k v nv hnorm]
  simp [updateUniqLoop, htrk, hfresh]

theorem updateUniqueness_dup (env : Env) (k : String) (v nv : Val)
    (cm : ConstraintMapping) (s : Finset PyType)
    (hnorm : normalizeValue env v = some nv)
    (htrk : alookup cm.preexisting k = some s) (hdup : pyTypeOf nv ∈ s) :
    updateUniqueness env [(k, v)] cm = (.error (.notUnique (pyTypeOf nv) k), cm) := by
  unfold updateUniqueness
  rw [parseRecordType_single env k v nv hnorm]
  simp [updateUniqLoop, htrk, hdup]

theorem updateUniqLoop_frame (fields : List (String × PyType)) :
    ∀ cm : ConstraintMapping,
      (updateUniqLoop cm fields).2.type_ = cm.type_ ∧
      (updateUniqLoop cm fields).2.not_null = cm.not_null := by
  induction fields with
  | nil => intro cm; simp [updateUniqLoop]
  | cons hd tl ih =>
    intro cm
    obtain ⟨k, t⟩ := hd
    cases hl : alookup cm.preexisting k with
    | none => simpa [updateUniqLoop, hl] using ih cm
    | some s =>
      by_cases ht : t ∈ s
      · simp [updateUniqLoop, hl, ht]
      · simpa [updateUniqLoop, hl, ht] using
          ih { cm with preexisting := astore cm.preexisting k (insert t s) }

theorem updateUniqLoop_superset (fields : List (String × PyType)) (c : String) :
    ∀ (cm : ConstraintMapping) (s : Finset PyType),
      alookup cm.preexisting c = some s →
      ∃ s', alookup (updateUniqLoop cm fields).2.preexisting c = some s' ∧ s ⊆ s' := by
  induction fields with
  | nil =>
    intro cm s h
    exact ⟨s, by simpa [updateUniqLoop] using h, Finset.Subset.refl s⟩
  | cons hd tl ih =>
    intro cm s h
    obtain ⟨k, t⟩ := hd
    cases hl : alookup cm.preexisting k with
    | none => simpa [updateUniqLoop, hl] using ih cm s h
    | some sk =>
      by_cases ht : t ∈ sk
      · exact ⟨s, by simpa [updateUniqLoop, hl, ht] using h, Finset.Subset.refl s⟩
      · by_cases hc : k = c
        · subst hc
          have hs : s = sk := by rw [h] at hl; injection hl
          subst hs
          obtain ⟨s', h1, h2⟩ := ih { cm with preexisting := astore cm.preexisting k (insert t s) }
            (insert t s) (by simp [alookup_astore])
          exact ⟨s', by simpa [updateUniqLoop, hl, ht] using h1,
            (Finset.subset_insert t s).trans h2⟩
        · obtain ⟨s', h1, h2⟩ := ih { cm with preexisting := astore cm.preexisting k (insert t sk) }
            s (by simpa [alookup_astore, hc] using h)
          exact ⟨s', by simpa [updateUniqLoop, hl, ht] using h1, h2⟩

theorem removeUniqLoop_frame (fields : List (String × PyType)) :
    ∀ cm : ConstraintMapping,
      (removeUniqLoop cm fields).type_ = cm.type_ ∧
      (removeUniqLoop cm fields).not_null = cm.not_null := by
  induction fields with
  | nil => intro cm; simp [removeUniqLoop]
  | cons hd tl ih =>
    intro cm
    obtain ⟨k, t⟩ := hd
    cases hl : alookup cm.preexisting k with
    | none => simpa [removeUniqLoop, hl] using ih cm
    | some s =>
      by_cases ht : t ∈ s
      · simpa [removeUniqLoop, hl, ht] using
          ih { cm with preexisting := astore cm.preexisting k (s.erase t) }
      · simpa [removeUniqLoop, hl, ht] using ih cm

theorem removeUniqLoop_subset (fields : List (String × PyType)) (c : String) :
    ∀ (cm : ConstraintMapping) (s : Finset PyType),
      alookup cm.preexisting c = some s →
      ∃ s', alookup (removeUniqLoop cm fields).preexisting c = some s' ∧ s' ⊆ s := by
  induction fields with
  | nil =>
    intro cm s h
    exact ⟨s, by simpa [removeUniqLoop] using h, Finset.Subset.refl s⟩
  | cons hd tl ih =>
    intro cm s h
    obtain ⟨k, t⟩ := hd
    cases hl : alookup cm.preexisting k with
    | none => simpa [removeUniqLoop, hl] using ih cm s h
    | some sk =>
      by_cases ht : t ∈ sk
      · by_cases hc : k = c
        · subst hc
          have hs : s = sk := by rw [h] at hl; injection hl
          subst hs
          obtain ⟨s', h1, h2⟩ := ih { cm with preexisting := astore cm.preexisting k (s.erase t) }
            (s.erase t) (by simp [alookup_astore])
          exact ⟨s', by simpa [removeUniqLoop, hl, ht] using h1,
            h2.trans (Finset.erase_subset t s)⟩
        · obtain ⟨s', h1, h2⟩ := ih { cm with preexisting := astore cm.preexisting k (sk.erase t) }
            s (by simpa [alookup_astore, hc] using h)
          exact ⟨s', by simpa [removeUniqLoop, hl, ht] using h1, h2⟩
      · simpa [removeUniqLoop, hl, ht] using ih cm s h

theorem removeUniqLoop_notMem (fields : List (String × PyType)) (k : String) (t : PyType) :
    ∀ cm : ConstraintMapping,
      (∀ s, alookup cm.preexisting k = some s → t ∉ s) →
      ∀ s', alookup (removeUniqLoop cm fields).preexisting k = some s' → t ∉ s' := by
  induction fields with
  | nil => intro cm h s' h'; exact h s' (by simpa [removeUniqLoop] using h')
  | cons hd tl ih =>
    intro cm h
    obtain ⟨k0, t0⟩ := hd
    cases hl : alookup cm.preexisting k0 with
    | none => simpa [removeUniqLoop, hl] using ih cm h
    | some s0 =>
      by_cases ht : t0 ∈ s0
      · have hnext : ∀ s, alookup (astore cm.preexisting k0 (s0.erase t0)) k = some s → t ∉ s := by
          intro s hs
          rw [alookup_astore] at hs
          by_cases hk0 : k0 = k
          · rw [if_pos hk0] at hs
            have : s = s0.erase t0 := by injection hs.symm
            subst this
            intro hts
            exact h s0 (hk0 ▸ hl) (Finset.mem_of_mem_erase hts)
          · rw [if_neg hk0] at hs
            exact h s hs
        simpa [removeUniqLoop, hl, ht] using
          ih { cm with preexisting := astore cm.preexisting k0 (s0.erase t0) } hnext
      · simpa [removeUniqLoop, hl, ht] using ih cm h

theorem removeUniqLoop_isSome (fields : List (String × PyType)) (k : String) :
    ∀ cm : ConstraintMapping,
      (alookup cm.preexisting k).isSome →
      (alookup (removeUniqLoop cm fields).preexisting k).isSome := by
  induction fields with
  | nil => intro cm h; simpa [removeUniqLoop] using h
  | cons hd tl ih =>
    intro cm h
    obtain ⟨k0, t0⟩ := hd
    cases hl : alookup cm.preexisting k0 with
    | none => simpa [removeUniqLoop, hl] using ih cm h
    | some s0 =>
      by_cases ht : t0 ∈ s0
      · have hnext : (alookup (astore cm.preexisting k0 (s0.erase t0)) k).isSome := by
          rw [alookup_astore]
          by_cases hk0 : k0 = k
          · simp [hk0]
          · simpa [hk0] using h
        simpa [removeUniqLoop, hl, ht] using
          ih { cm with preexisting := astore cm.preexisting k0 (s0.erase t0) } hnext
      · simpa [removeUniqLoop, hl, ht] using ih cm h

theorem removeUniqLoop_kills (fields : List (String × PyType)) (k : String) (t : PyType)
    (hmem : (k, t) ∈ fields) :
    ∀ cm : ConstraintMapping,
      (alookup cm.preexisting k).isSome →
      ∀ s', alookup (removeUniqLoop cm fields).preexisting k = some s' → t ∉ s' := by
  induction fields with
  | nil => simp at hmem
  | cons hd tl ih =>
    intro cm hsome
    obtain ⟨k0, t0⟩ := hd
    rcases List.mem_cons.mp hmem with heq | htl
    · obtain ⟨h1, h2⟩ := Prod.mk.injEq .. ▸ heq
      subst h1
      subst h2
      obtain ⟨s0, hs0⟩ := Option.isSome_iff_exists.mp hsome
      by_cases hts : t ∈ s0
      · have hnext : ∀ s, alookup (astore cm.preexisting k (s0.erase t)) k = some s → t ∉ s := by
          intro s hs
          rw [alookup_astore, if_pos rfl] at hs
          have : s = s0.erase t := by injection hs.symm
          subst this
          exact Finset.not_mem_erase t s0
        simpa [removeUniqLoop, hs0, hts] using
          removeUniqLoop_notMem tl k t
            { cm with preexisting := astore cm.preexisting k (s0.erase t) } hnext
      · have hnext : ∀ s, alookup cm.preexisting k = some s → t ∉ s := by
          intro s hs
          have : s = s0 := by rw [hs0] at hs; injection hs.symm
          subst this
          exact hts
        simpa [removeUniqLoop, hs0, hts] using removeUniqLoop_notMem tl k t cm hnext
    · cases hl : alookup cm.preexisting k0 with
      | none => simpa [removeUniqLoop, hl] using ih htl cm hsome
      | some s0 =>
        by_cases ht : t0 ∈ s0
        · have hnext : (alookup (astore cm.preexisting k0 (s0.erase t0)) k).isSome := by
            rw [alookup_astore]
            by_cases hk0 : k0 = k
            · simp [hk0]
            · simpa [hk0] using hsome
          simpa [removeUniqLoop, hl, ht] using
            ih htl { cm with preexisting := astore cm.preexisting k0 (s0.erase t0) } hnext
        · simpa [removeUniqLoop, hl, ht] using ih htl cm hsome

theorem removeFold_notMem (env : Env) (recs : List Record) (k : String) (t : PyType) :
    ∀ cm : ConstraintMapping,
      (∀ s, alookup cm.preexisting k = some s → t ∉ s) →
      ∀ s', alookup ((recs.foldl (fun cm r => removeUniqueness env r cm) cm)).preexisting k
        = some s' → t ∉ s' := by
  induction recs with
  | nil => intro cm h s' h'; exact h s' (by simpa using h')
  | cons r rs ih =>
    intro cm h
    simpa using ih (removeUniqueness env r cm) (removeUniqLoop_notMem _ k t cm h)

theorem removeFold_isSome (env : Env) (recs : List Record) (k : String) :
    ∀ cm : ConstraintMapping,
      (alookup cm.preexisting k).isSome →
      (alookup ((recs.foldl (fun cm r => removeUniqueness env r cm) cm)).preexisting k).isSome := by
  induction recs with
  | nil => intro cm h; simpa using h
  | cons r rs ih =>
    intro cm h
    simpa using ih (removeUniqueness env r cm) (removeUniqLoop_isSome _ k cm h)

theorem removeFold_kills (env : Env) (recs : List Record) (k : String) (t : PyType)
    (hex : ∃ r ∈ recs, (k, t) ∈ parseRecordType env r) :
    ∀ cm : ConstraintMapping,
      (alookup cm.preexisting k).isSome →
      ∀ s', alookup ((recs.foldl (fun cm r => removeUniqueness env r cm) cm)).preexisting k
        = some s' → t ∉ s' := by
  induction recs with
  | nil => simp at hex
  | cons r rs ih =>
    intro cm hsome
    rcases hex with ⟨r', hr', hfield⟩
    rcases List.mem_cons.mp hr' with heq | htl
    · subst heq
      simpa using removeFold_notMem env rs k t (removeUniqueness env r' cm)
        (removeUniqLoop_kills _ k t hfield cm hsome)
    · simpa using ih ⟨r', htl, hfield⟩ (removeUniqueness env r cm)
        (removeUniqLoop_isSome _ k cm hsome)

theorem removeFold_frame (env : Env) (recs : List Record) :
    ∀ cm : ConstraintMapping,
      ((recs.foldl (fun cm r => removeUniqueness env r cm) cm)).type_ = cm.type_ ∧
      ((recs.foldl (fun cm r => removeUniqueness env r cm) cm)).not_null = cm.not_null := by
  induction recs with
  | nil => intro cm; simp
  | cons r rs ih =>
    intro cm
    have h1 := ih (removeUniqueness env r cm)
    have h2 := removeUniqLoop_frame (parseRecordType env r) cm
    constructor
    · simpa [removeUniqueness] using h1.1.trans h2.1
    · simpa [removeUniqueness] using h1.2.trans h2.2

theorem removeFold_subset (env : Env) (recs : List Record) (c : String) :
    ∀ (cm : ConstraintMapping) (s : Finset PyType),
      alookup cm.preexisting c = some s →
      ∃ s', alookup ((recs.foldl (fun cm r => removeUniqueness env r cm) cm)).preexisting c
        = some s' ∧ s' ⊆ s := by
  induction recs with
  | nil => intro cm s h; exact ⟨s, by simpa using h, Finset.Subset.refl s⟩
  | cons r rs ih =>
    intro cm s h
    obtain ⟨s1, h1, hsub1⟩ := removeUniqLoop_subset (parseRecordType env r) c cm s h
    obtain ⟨s2, h2, hsub2⟩ := ih (removeUniqueness env r cm) s1 h1
    exact ⟨s2, by simpa using h2, hsub2.trans hsub1⟩

theorem updateUniqAll_frame (env : Env) (rows : List Record) :
    ∀ cm : ConstraintMapping,
      (updateUniqAll env rows cm).2.type_ = cm.type_ ∧
      (updateUniqAll env rows cm).2.not_null = cm.not_null := by
  induction rows with
  | nil => intro cm; simp [updateUniqAll]
  | cons r rs ih =>
    intro cm
    have h2 := updateUniqLoop_frame (parseRecordType env r) cm
    cases hu : updateUniqueness env r cm with
    | mk res cm' =>
      have h2' : cm'.type_ = cm.type_ ∧ cm'.not_null = cm.not_null := by
        have heq : (updateUniqueness env r cm).2 = cm' := by rw [hu]
        rw [← heq]
        exact h2
      cases res with
      | ok u => simpa [updateUniqAll, hu] using ⟨(ih cm').1.trans h2'.1, (ih cm').2.trans h2'.2⟩
      | error e => simpa [updateUniqAll, hu] using h2'

theorem updateUniqAll_superset (env : Env) (rows : List Record) (c : String) :
    ∀ (cm : ConstraintMapping) (s : Finset PyType),
      alookup cm.preexisting c = some s →
      ∃ s', alookup (updateUniqAll env rows cm).2.preexisting c = some s' ∧ s ⊆ s' := by
  induction rows with
  | nil => intro cm s h; exact ⟨s, by simpa [updateUniqAll] using h, Finset.Subset.refl s⟩
  | cons r rs ih =>
    intro cm s h
    obtain ⟨s1, h1, hsub1⟩ := updateUniqLoop_superset (parseRecordType env r) c cm s h
    cases hu : updateUniqueness env r cm with
    | mk res cm' =>
      have h1' : alookup cm'.preexisting c = some s1 := by
        have heq : (updateUniqueness env r cm).2 = cm' := by rw [hu]
        rw [← heq]
        exact h1
      cases res with
      | ok u =>
        obtain ⟨s2, h2, hsub2⟩ := ih cm' s1 h1'
        exact ⟨s2, by simpa [updateUniqAll, hu] using h2, hsub1.trans hsub2⟩
      | error e => exact ⟨s1, by simpa [updateUniqAll, hu] using h1', hsub1⟩

theorem deleteRows_state_cm (env : Env) (flt : List (String × Val)) (fail : Bool)
    (st : TableState) :
    (deleteRows env flt fail st).state.cm = (removeAllSeen env flt st).cm := by
  unfold deleteRows delegatedDeleteOp
  cases fail with
  | true =>
    simp only [if_pos]
    split <;> rfl
  | false =>
    simp only [Bool.false_eq_true, if_false]
    split <;> rfl

theorem pyIsDigit_iff (s : String) :
    pyIsDigit s = true ↔ (s.data ≠ [] ∧ ∀ c ∈ s.data, c.isDigit = true) := by
  simp [pyIsDigit, List.all_eq_true, List.isEmpty_iff]

/-- C1: with the normalize-datetime toggle enabled, a string field whose
normalized, trimmed form consists solely of decimal digits classifies as
Integer; one where removing exactly one dot leaves only digits classifies
as Float; the empty string and the lone hyphen are skipped, leaving the
field absent from both the type view and the record/null-check view; any
other string classifies as Timestamp when the general date/time parse
succeeds and as String when it fails. -/
theorem C1_string_classification (env : Env) (henv : env.tinydb_datetime = true)
    (k : String) (s : String) :
    ((env.nfkd (pyStrip s)).data ≠ [] ∧
        (∀ c ∈ (env.nfkd (pyStrip s)).data, c.isDigit = true) →
      parseRecordType env [(k, .str s)] = [(k, .int)])
    ∧ ('.' ∈ (env.nfkd (pyStrip s)).data ∧
        (removeFirstDot (env.nfkd (pyStrip s))).data ≠ [] ∧
        (∀ c ∈ (removeFirstDot (env.nfkd (pyStrip s))).data, c.isDigit = true) →
      parseRecordType env [(k, .str s)] = [(k, .float)])
    ∧ (env.nfkd (pyStrip s) = "" ∨ env.nfkd (pyStrip s) = "-" →
      parseRecordType env [(k, .str s)] = [] ∧ parseRecordRecord env [(k, .str s)] = [])
    ∧ (¬((env.nfkd (pyStrip s)).data ≠ [] ∧
          ∀ c ∈ (env.nfkd (pyStrip s)).data, c.isDigit = true) →
       ¬('.' ∈ (env.nfkd (pyStrip s)).data ∧
          (removeFirstDot (env.nfkd (pyStrip s))).data ≠ [] ∧
          ∀ c ∈ (removeFirstDot (env.nfkd (pyStrip s))).data, c.isDigit = true) →
       ¬(env.nfkd (pyStrip s) = "" ∨ env.nfkd (pyStrip s) = "-") →
       ((∀ d, env.dateparse (env.nfkd (pyStrip s)) = some d →
          parseRecordType env [(k, .str s)] = [(k, .datetime)])
        ∧ (env.dateparse (env.nfkd (pyStrip s)) = none →
          parseRecordType env [(k, .str s)] = [(k, .str)]))) := by
  refine ⟨?_, ?_, ?_, ?_⟩
  · intro hd
    have hpd : pyIsDigit (env.nfkd (pyStrip s)) = true := (pyIsDigit_iff _).mpr hd
    simp [parseRecordType, normalizeValue, henv, hpd, pyTypeOf]
  · rintro ⟨hdot, hrest⟩
    have hpd : pyIsDigit (env.nfkd (pyStrip s)) = false := by
      cases h : pyIsDigit (env.nfkd (pyStrip s)) with
      | false => rfl
      | true =>
        have := ((pyIsDigit_iff _).mp h).2 '.' hdot
        simp at this
    have hpf : pyIsDigit (removeFirstDot (env.nfkd (pyStrip s))) = true :=
      (pyIsDigit_iff _).mpr hrest
    simp [parseRecordType, normalizeValue, henv, hpd, hpf, hdot, pyTypeOf]
  · intro hskip
    have hnone := normalizeValue_skip env henv s hskip
    simp [parseRecordType, parseRecordRecord, hnone]
  · intro hnd hnf hns
    have hpd : pyIsDigit (env.nfkd (pyStrip s)) = false := by
      cases h : pyIsDigit (env.nfkd (pyStrip s)) with
      | false => rfl
      | true => exact absurd ((pyIsDigit_iff _).mp h) hnd
    have hcond : ¬('.' ∈ (env.nfkd (pyStrip s)).data ∧
        pyIsDigit (removeFirstDot (env.nfkd (pyStrip s))) = true) := by
      rintro ⟨h1, h2⟩
      exact hnf ⟨h1, (pyIsDigit_iff _).mp h2⟩
    constructor
    · intro d hd
      simp [parseRecordType, normalizeValue, henv, hpd, hcond, hns, hd, pyTypeOf]
    · intro hd
      simp [parseRecordType, normalizeValue, henv, hpd, hcond, hns, hd, pyTypeOf]

theorem C1_string_classification_witness :
    env0.tinydb_datetime = true
    ∧ parseRecordType env0 [(("a"), Val.str (" 42 "))] = [(("a"), PyType.int)]
    ∧ parseRecordType env0 [(("a"), Val.str ("3.5"))] = [(("a"), PyType.float)]
    ∧ (parseRecordType env0 [(("a"), Val.str (" - "))] = []
        ∧ parseRecordRecord env0 [(("a"), Val.str (" - "))] = [])
    ∧ parseRecordType env0 [(("a"), Val.str ("2020-01-02"))] = [(("a"), PyType.datetime)]
    ∧ parseRecordType env0 [(("a"), Val.str ("abc"))] = [(("a"), PyType.str)] := by
  refine ⟨rfl, ?_, ?_, ?_, ?_, ?_⟩
  · exact (C1_string_classification env0 rfl ("a") (" 42 ")).1 (by decide)
  · exact (C1_string_classification env0 rfl ("a") ("3.5")).2.1 (by decide)
  · exact (C1_string_classification env0 rfl ("a") (" - ")).2.2.1 (by decide)
  · exact ((C1_string_classification env0 rfl ("a") ("2020-01-02")).2.2.2
      (by decide) (by decide) (by decide)).1 ⟨737426, 0⟩ (by decide)
  · exact ((C1_string_classification env0 rfl ("a") ("abc")).2.2.2
      (by decide) (by decide) (by decide)).2 (by decide)

/-- C2: during a full refresh, a field whose classified type differs from
the column's established type is accepted when the established type is
String and the observation Integer or Float (widen-on-read, no error), and
raises `NonUniformTypeException` naming the observed and expected tags in
every other differing case. -/
theorem C2_refresh_widening (env : Env) (k : String) (rawv nv : Val) (e : PyType)
    (pre : List (String × Finset PyType))
    (hnorm : normalizeValue env rawv = some nv) :
    ((e = .str ∧ (pyTypeOf nv = .int ∨ pyTypeOf nv = .float)) →
      (refreshFull env false ⟨[[(k, rawv)]], ⟨[(k, e)], [], pre⟩⟩).1 = .ok none)
    ∧ (pyTypeOf nv ≠ e → ¬(e = .str ∧ (pyTypeOf nv = .int ∨ pyTypeOf nv = .float)) →
      (refreshFull env false ⟨[[(k, rawv)]], ⟨[(k, e)], [], pre⟩⟩).1
        = .error (.nonUniform (pyTypeOf nv) e)) := by
  constructor
  · rintro ⟨he, hv⟩
    subst he
    have hne : pyTypeOf nv ≠ PyType.str := by
      rcases hv with h | h <;> rw [h] <;> decide
    unfold refreshFull refreshRecords refreshRecord
    rw [parseRecordType_single env k rawv nv hnorm]
    simp [refreshTypeLoop, refreshNullCheck, alookup, hne, hv, refreshRecords]
  · intro hne hnw
    unfold refreshFull refreshRecords refreshRecord
    rw [parseRecordType_single env k rawv nv hnorm]
    simp [refreshTypeLoop, refreshNullCheck, alookup, hne, hnw, refreshRecords]

theorem C2_refresh_widening_witness :
    normalizeValue env0 (Val.str ("5")) = some (Val.int 5)
    ∧ (refreshFull env0 false ⟨[[(("a"), Val.str ("5"))]],
        ⟨[(("a"), PyType.str)], [], []⟩⟩).1 = .ok none
    ∧ normalizeValue env0 (Val.str ("x")) = some (Val.str ("x"))
    ∧ (refreshFull env0 false ⟨[[(("a"), Val.str ("x"))]],
        ⟨[(("a"), PyType.int)], [], []⟩⟩).1
        = .error (.nonUniform PyType.str PyType.int) := by
  refine ⟨by decide, ?_, by decide, ?_⟩
  · exact (C2_refresh_widening env0 ("a") (Val.str ("5")) (Val.int 5) PyType.str []
      (by decide)).1 ⟨rfl, Or.inl rfl⟩
  · exact (C2_refresh_widening env0 ("a") (Val.str ("x")) (Val.str ("x")) PyType.int []
      (by decide)).2 (by decide) (by decide)

/-- C3: for a column under uniqueness tracking, inserting the same
classified value twice raises `NotUniqueException` on the second
occurrence before the write is delegated (the storage is unchanged and the
seen-set keeps exactly one copy of the value's classification); an update
carrying the duplicate is rejected the same way, and in a bulk insert a
later row duplicating an earlier row of the same batch is rejected before
anything reaches storage. -/
theorem C3_uniqueness_law (env : Env) (st : TableState) (k : String) (rawv nv : Val)
    (s0 : Finset PyType) (keys : List String)
    (hnorm : normalizeValue env rawv = some nv)
    (htrk : alookup st.cm.preexisting k = some s0)
    (hfresh : pyTypeOf nv ∉ s0) :
    (insertOne env [(k, rawv)] st).1 = .ok ()
    ∧ (insertOne env [(k, rawv)] st).2.storage = st.storage ++ [[(k, rawv)]]
    ∧ alookup (insertOne env [(k, rawv)] st).2.cm.preexisting k
        = some (insert (pyTypeOf nv) s0)
    ∧ (insert (pyTypeOf nv) s0).val.count (pyTypeOf nv) = 1
    ∧ (insertOne env [(k, rawv)] (insertOne env [(k, rawv)] st).2).1
        = .error (.notUnique (pyTypeOf nv) k)
    ∧ (insertOne env [(k, rawv)] (insertOne env [(k, rawv)] st).2).2
        = (insertOne env [(k, rawv)] st).2
    ∧ (updateRow env [(k, rawv)] keys (insertOne env [(k, rawv)] st).2).1
        = .error (.notUnique (pyTypeOf nv) k)
    ∧ (insertMany env [[(k, rawv)], [(k, rawv)]] st).1 = .error (.notUnique (pyTypeOf nv) k)
    ∧ (insertMany env [[(k, rawv)], [(k, rawv)]] st).2.storage = st.storage := by
  have h1 := updateUniqueness_fresh env k rawv nv st.cm s0 hnorm htrk hfresh
  have hst1 : (insertOne env [(k, rawv)] st).2
      = ⟨st.storage ++ [[(k, rawv)]],
         { st.cm with preexisting := astore st.cm.preexisting k (insert (pyTypeOf nv) s0) }⟩ := by
    simp [insertOne, h1]
  have hlk1 : alookup
      ({ st.cm with preexisting := astore st.cm.preexisting k (insert (pyTypeOf nv) s0) }
        : ConstraintMapping).preexisting k = some (insert (pyTypeOf nv) s0) := by
    simp [alookup_astore]
  have h2 := updateUniqueness_dup env k rawv nv
    { st.cm with preexisting := astore st.cm.preexisting k (insert (pyTypeOf nv) s0) }
    (insert (pyTypeOf nv) s0) hnorm hlk1 (Finset.mem_insert_self _ _)
  refine ⟨by simp [insertOne, h1], by rw [hst1], by rw [hst1]; exact hlk1, ?_, ?_, ?_, ?_, ?_, ?_⟩
  · exact Multiset.count_eq_one_of_mem (Finset.nodup _)
      (Finset.mem_val.mpr (Finset.mem_insert_self _ _))
  · rw [hst1]
    simp [insertOne, h2]
  · rw [hst1]
    simp [insertOne, h2]
  · rw [hst1]
    simp [updateRow, h2]
  · simp [insertMany, updateUniqAll, h1, h2]
  · simp [insertMany, updateUniqAll, h1, h2]

theorem C3_uniqueness_law_witness :
    normalizeValue env0 (Val.str ("1")) = some (Val.int 1)
    ∧ alookup stUniq.cm.preexisting ("id") = some ∅
    ∧ pyTypeOf (Val.int 1) ∉ (∅ : Finset PyType)
    ∧ ((insertOne env0 [(("id"), Val.str ("1"))] stUniq).1 = .ok ()
    ∧ (insertOne env0 [(("id"), Val.str ("1"))] stUniq).2.storage
        = stUniq.storage ++ [[(("id"), Val.str ("1"))]]
    ∧ alookup (insertOne env0 [(("id"), Val.str ("1"))] stUniq).2.cm.preexisting ("id")
        = some (insert (pyTypeOf (Val.int 1)) ∅)
    ∧ (insert (pyTypeOf (Val.int 1)) (∅ : Finset PyType)).val.count (pyTypeOf (Val.int 1)) = 1
    ∧ (insertOne env0 [(("id"), Val.str ("1"))]
        (insertOne env0 [(("id"), Val.str ("1"))] stUniq).2).1
        = .error (.notUnique (pyTypeOf (Val.int 1)) ("id"))
    ∧ (insertOne env0 [(("id"), Val.str ("1"))]
        (insertOne env0 [(("id"), Val.str ("1"))] stUniq).2).2
        = (insertOne env0 [(("id"), Val.str ("1"))] stUniq).2
    ∧ (updateRow env0 [(("id"), Val.str ("1"))] [("id")]
        (insertOne env0 [(("id"), Val.str ("1"))] stUniq).2).1
        = .error (.notUnique (pyTypeOf (Val.int 1)) ("id"))
    ∧ (insertMany env0 [[(("id"), Val.str ("1"))], [(("id"), Val.str ("1"))]] stUniq).1
        = .error (.notUnique (pyTypeOf (Val.int 1)) ("id"))
    ∧ (insertMany env0 [[(("id"), Val.str ("1"))], [(("id"), Val.str ("1"))]] stUniq).2.storage
        = stUniq.storage) :=
  ⟨by decide, by decide, by decide,
   C3_uniqueness_law env0 stUniq ("id") (Val.str ("1")) (Val.int 1) ∅ [("id")]
     (by decide) (by decide) (by decide)⟩

/-- C10: when a multi-column record is rejected with `NotUniqueException`
because a later column's entry is a duplicate, the tracked column iterated
before the offending one keeps the entry that was added for the rejected
record — the rejection does not roll the earlier addition back, though the
write never reaches storage. -/
theorem C10_rejection_not_atomic (env : Env) (st : TableState) (k1 k2 : String)
    (rawv1 nv1 rawv2 nv2 : Val) (s1 s2 : Finset PyType)
    (h1 : normalizeValue env rawv1 = some nv1) (h2 : normalizeValue env rawv2 = some nv2)
    (hk : k1 ≠ k2)
    (ht1 : alookup st.cm.preexisting k1 = some s1) (hf1 : pyTypeOf nv1 ∉ s1)
    (ht2 : alookup st.cm.preexisting k2 = some s2) (hd2 : pyTypeOf nv2 ∈ s2) :
    (insertOne env [(k1, rawv1), (k2, rawv2)] st).1 = .error (.notUnique (pyTypeOf nv2) k2)
    ∧ alookup (insertOne env [(k1, rawv1), (k2, rawv2)] st).2.cm.preexisting k1
        = some (insert (pyTypeOf nv1) s1)
    ∧ (insertOne env [(k1, rawv1), (k2, rawv2)] st).2.storage = st.storage := by
  have hp := parseRecordType_pair env k1 k2 rawv1 nv1 rawv2 nv2 h1 h2
  have hlk2 : alookup (astore st.cm.preexisting k1 (insert (pyTypeOf nv1) s1)) k2 = some s2 := by
    rw [alookup_astore, if_neg hk]
    exact ht2
  unfold insertOne updateUniqueness
  rw [hp]
  simp [updateUniqLoop, ht1, hf1, hlk2, hd2, alookup_astore]

theorem C10_rejection_not_atomic_witness :
    normalizeValue env0 (Val.str ("7")) = some (Val.int 7)
    ∧ normalizeValue env0 (Val.str ("9")) = some (Val.int 9)
    ∧ ("u1" : String) ≠ ("u2")
    ∧ alookup stTwoCols.cm.preexisting ("u1") = some ∅
    ∧ pyTypeOf (Val.int 7) ∉ (∅ : Finset PyType)
    ∧ alookup stTwoCols.cm.preexisting ("u2") = some {PyType.int}
    ∧ pyTypeOf (Val.int 9) ∈ ({PyType.int} : Finset PyType)
    ∧ ((insertOne env0 [(("u1"), Val.str ("7")), (("u2"), Val.str ("9"))] stTwoCols).1
        = .error (.notUnique (pyTypeOf (Val.int 9)) ("u2"))
    ∧ alookup (insertOne env0 [(("u1"), Val.str ("7")), (("u2"), Val.str ("9"))]
          stTwoCols).2.cm.preexisting ("u1")
        = some (insert (pyTypeOf (Val.int 7)) ∅)
    ∧ (insertOne env0 [(("u1"), Val.str ("7")), (("u2"), Val.str ("9"))] stTwoCols).2.storage
        = stTwoCols.storage) :=
  ⟨by decide, by decide, by decide, by decide, by decide, by decide, by decide,
   C10_rejection_not_atomic env0 stTwoCols ("u1") ("u2") (Val.str ("7")) (Val.int 7)
     (Val.str ("9")) (Val.int 9) ∅ {PyType.int}
     (by decide) (by decide) (by decide) (by decide) (by decide) (by decide) (by decide)⟩

/-- C4: a record scanned by full refresh whose rendered view lacks one or
more required columns makes refresh raise `NotNullException` naming every
missing required column of that record (the whole set-difference, not only
the first); a required column supplied as an empty string or lone hyphen
is among them, because such fields are skipped and hence absent from the
rendered view. -/
theorem C4_null_violation (env : Env) (r : Record) (ts : List (String × PyType))
    (nn : List String) (pre : List (String × Finset PyType))
    (htypes : refreshTypeLoop ⟨ts, nn, pre⟩ none (parseRecordType env r) = .ok none)
    (hmiss : nn.filter (fun c => ¬((parseRecordRecord env r).map Prod.fst).contains c) ≠ []) :
    (refreshFull env false ⟨[r], ⟨ts, nn, pre⟩⟩).1
      = .error (.notNull (nn.filter
          (fun c => ¬((parseRecordRecord env r).map Prod.fst).contains c)))
    ∧ (∀ c ∈ nn, c ∉ (parseRecordRecord env r).map Prod.fst →
        c ∈ nn.filter (fun c => ¬((parseRecordRecord env r).map Prod.fst).contains c))
    ∧ (env.tinydb_datetime = true → (r.map Prod.fst).Nodup →
        ∀ c ∈ nn, ∀ sv : String, alookup r c = some (.str sv) →
          (env.nfkd (pyStrip sv) = "" ∨ env.nfkd (pyStrip sv) = "-") →
          c ∈ nn.filter (fun c => ¬((parseRecordRecord env r).map Prod.fst).contains c)) := by
  have h2 : ∀ c ∈ nn, c ∉ (parseRecordRecord env r).map Prod.fst →
      c ∈ nn.filter (fun c => ¬((parseRecordRecord env r).map Prod.fst).contains c) := by
    intro c hc habs
    simp [List.mem_filter, hc]
    simpa using habs
  refine ⟨?_, h2, ?_⟩
  · have hne : (nn.filter
        (fun c => ¬((parseRecordRecord env r).map Prod.fst).contains c)).isEmpty = false := by
      simpa [List.isEmpty_iff] using hmiss
    simp [refreshFull, refreshRecords, refreshRecord, refreshNullCheck, htypes, hne]
    rw [hne]
    simp
  · intro henv hnodup c hc sv hlk hskip
    exact h2 c hc
      (key_skipped_absent env r c (.str sv) hnodup hlk (normalizeValue_skip env henv sv hskip))

theorem C4_null_violation_witness :
    refreshTypeLoop ⟨[], [("n1"), ("n2")], []⟩ none
        (parseRecordType env0 [(("x"), Val.str ("1")), (("n2"), Val.str ("-"))]) = .ok none
    ∧ ([("n1"), ("n2")] : List String).filter
        (fun c => ¬((parseRecordRecord env0
            [(("x"), Val.str ("1")), (("n2"), Val.str ("-"))]).map Prod.fst).contains c) ≠ []
    ∧ ((refreshFull env0 false ⟨[[(("x"), Val.str ("1")), (("n2"), Val.str ("-"))]],
          ⟨[], [("n1"), ("n2")], []⟩⟩).1
        = .error (.notNull (([("n1"), ("n2")] : List String).filter
            (fun c => ¬((parseRecordRecord env0
                [(("x"), Val.str ("1")), (("n2"), Val.str ("-"))]).map Prod.fst).contains c)))
    ∧ (∀ c ∈ ([("n1"), ("n2")] : List String),
        c ∉ (parseRecordRecord env0
            [(("x"), Val.str ("1")), (("n2"), Val.str ("-"))]).map Prod.fst →
        c ∈ ([("n1"), ("n2")] : List String).filter
          (fun c => ¬((parseRecordRecord env0
              [(("x"), Val.str ("1")), (("n2"), Val.str ("-"))]).map Prod.fst).contains c))
    ∧ (env0.tinydb_datetime = true →
        (([(("x"), Val.str ("1")), (("n2"), Val.str ("-"))] : Record).map Prod.fst).Nodup →
        ∀ c ∈ ([("n1"), ("n2")] : List String), ∀ sv : String,
          alookup [(("x"), Val.str ("1")), (("n2"), Val.str ("-"))] c = some (.str sv) →
          (env0.nfkd (pyStrip sv) = "" ∨ env0.nfkd (pyStrip sv) = "-") →
          c ∈ ([("n1"), ("n2")] : List String).filter
            (fun c => ¬((parseRecordRecord env0
                [(("x"), Val.str ("1")), (("n2"), Val.str ("-"))]).map Prod.fst).contains c))) :=
  ⟨by decide, by decide,
   C4_null_violation env0 [(("x"), Val.str ("1")), (("n2"), Val.str ("-"))]
     [] [("n1"), ("n2")] [] (by decide) (by decide)⟩

/-- C7: delete always runs the reconciling refresh after the delegated
removal — on normal return and on a storage error alike — an exception
raised by that refresh replaces the one in flight, and when the delegate
raised while the refresh succeeds, the storage error propagates
unchanged. -/
theorem C7_delete_always_refreshes (env : Env) (flt : List (String × Val)) (fail : Bool)
    (st : TableState) :
    (deleteRows env flt fail st).trace = [.delegatedDelete, .refreshRun]
    ∧ (∀ e2, (refreshFull env false (deleteRows env flt fail st).state).1 = .error e2 →
        (deleteRows env flt fail st).res = .error e2)
    ∧ (fail = true →
        ∀ v, (refreshFull env false (deleteRows env flt fail st).state).1 = .ok v →
        (deleteRows env flt fail st).res = .error .storage) := by
  cases fail with
  | true =>
    cases h2 : (refreshFull env false (removeAllSeen env flt st)).1 with
    | ok v =>
      refine ⟨?_, ?_, ?_⟩ <;>
        simp [deleteRows, delegatedDeleteOp, h2]
    | error e2' =>
      refine ⟨?_, ?_, ?_⟩ <;>
        simp [deleteRows, delegatedDeleteOp, h2]
  | false =>
    cases h2 : (refreshFull env false
        ⟨(removeAllSeen env flt st).storage.filter (fun r => !matchesFilter flt r),
         (removeAllSeen env flt st).cm⟩).1 with
    | ok v =>
      refine ⟨?_, ?_, ?_⟩ <;>
        simp [deleteRows, delegatedDeleteOp, h2]
    | error e2' =>
      refine ⟨?_, ?_, ?_⟩ <;>
        simp [deleteRows, delegatedDeleteOp, h2]

theorem C7_delete_always_refreshes_witness :
    (refreshFull env0 false
        (deleteRows env0 [(("q"), Val.str ("z"))] true stBadType).state).1
      = .error (.nonUniform PyType.str PyType.int)
    ∧ (deleteRows env0 [(("q"), Val.str ("z"))] true stBadType).res
      = .error (.nonUniform PyType.str PyType.int) :=
  ⟨by decide,
   (C7_delete_always_refreshes env0 [(("q"), Val.str ("z"))] true stBadType).2.1
     (.nonUniform PyType.str PyType.int) (by decide)⟩

/-- C9 counterexample: a successful insert whose row touches no tracked
column leaves the ConstraintMapping untouched, and a full refresh (silent
or report mode) never changes it either — refuting "mutated by every
successful write and by every full-table refresh". -/
theorem C9_counterexample :
    (insertOne env0 [(("b"), Val.str ("y"))] stPlain).1 = .ok ()
    ∧ (insertOne env0 [(("b"), Val.str ("y"))] stPlain).2.cm = stPlain.cm
    ∧ (refreshFull env0 false stPlain).2 = stPlain
    ∧ (refreshFull env0 true stPlain).2 = stPlain := by
  decide

/-- C9 amended: the ConstraintMapping is created empty at construction and
replaced wholesale on explicit schema reset; refresh never mutates it
(report mode accumulates only into a deep copy); the write paths mutate
only the uniqueness seen-sets, leaving the type and not-null state
untouched. -/
theorem C9_amended_mapping_lifecycle (env : Env) (st : TableState) (output : Bool)
    (row : Record) (keys : List String) (rows : List Record)
    (flt : List (String × Val)) (fail : Bool) (decls : List (String × SchemaDecl)) :
    (refreshFull env output st).2 = st
    ∧ (insertOne env row st).2.cm.type_ = st.cm.type_
    ∧ (insertOne env row st).2.cm.not_null = st.cm.not_null
    ∧ (updateRow env row keys st).2.cm.type_ = st.cm.type_
    ∧ (updateRow env row keys st).2.cm.not_null = st.cm.not_null
    ∧ (insertMany env rows st).2.cm.type_ = st.cm.type_
    ∧ (insertMany env rows st).2.cm.not_null = st.cm.not_null
    ∧ (deleteRows env flt fail st).state.cm.type_ = st.cm.type_
    ∧ (deleteRows env flt fail st).state.cm.not_null = st.cm.not_null
    ∧ (setSchema decls st).cm = ConstraintMapping.empty.update decls := by
  have hrf : (refreshFull env output st).2 = st := by
    cases h : refreshRecords env st.cm
        (if output then some (initOut st.cm) else none) st.storage with
    | error e => simp [refreshFull, h]
    | ok om => simp [refreshFull, h]
  have hone : (insertOne env row st).2.cm.type_ = st.cm.type_
      ∧ (insertOne env row st).2.cm.not_null = st.cm.not_null := by
    have hf := updateUniqLoop_frame (parseRecordType env row) st.cm
    cases hu : updateUniqueness env row st.cm with
    | mk res cm' =>
      have hf' : cm'.type_ = st.cm.type_ ∧ cm'.not_null = st.cm.not_null := by
        have heq : (updateUniqueness env row st.cm).2 = cm' := by rw [hu]
        rw [← heq]
        exact hf
      cases res with
      | ok u => simpa [insertOne, hu] using hf'
      | error e => simpa [insertOne, hu] using hf'
  have hupd : (updateRow env row keys st).2.cm.type_ = st.cm.type_
      ∧ (updateRow env row keys st).2.cm.not_null = st.cm.not_null := by
    have hf := updateUniqLoop_frame (parseRecordType env row) st.cm
    cases hu : updateUniqueness env row st.cm with
    | mk res cm' =>
      have hf' : cm'.type_ = st.cm.type_ ∧ cm'.not_null = st.cm.not_null := by
        have heq : (updateUniqueness env row st.cm).2 = cm' := by rw [hu]
        rw [← heq]
        exact hf
      cases res with
      | ok u => simpa [updateRow, hu] using hf'
      | error e => simpa [updateRow, hu] using hf'
  have hmany : (insertMany env rows st).2.cm.type_ = st.cm.type_
      ∧ (insertMany env rows st).2.cm.not_null = st.cm.not_null := by
    have hf := updateUniqAll_frame env rows st.cm
    cases hu : updateUniqAll env rows st.cm with
    | mk res cm' =>
      have hf' : cm'.type_ = st.cm.type_ ∧ cm'.not_null = st.cm.not_null := by
        have heq : (updateUniqAll env rows st.cm).2 = cm' := by rw [hu]
        rw [← heq]
        exact hf
      cases res with
      | ok u => simpa [insertMany, hu] using hf'
      | error e => simpa [insertMany, hu] using hf'
  have hdel : (deleteRows env flt fail st).state.cm.type_ = st.cm.type_
      ∧ (deleteRows env flt fail st).state.cm.not_null = st.cm.not_null := by
    rw [deleteRows_state_cm]
    have hf := removeFold_frame env (st.storage.filter (matchesFilter flt)) st.cm
    exact ⟨by simpa [removeAllSeen] using hf.1, by simpa [removeAllSeen] using hf.2⟩
  exact ⟨hrf, hone.1, hone.2, hupd.1, hupd.2, hmany.1, hmany.2, hdel.1, hdel.2, rfl⟩

/-- C6 counterexample: updating the stored record's `id` from an integer
to a plain string leaves the stale integer tag in the seen-set — after the
update the seen-set for `id` holds both tags while the stored column holds
only the string tag, so `preexisting` does not equal the set of
classifications present in the column. -/
theorem C6_counterexample :
    (updateRow env0 [(("name"), Val.str ("a")), (("id"), Val.str ("x2"))]
        [("name")] stStale).1 = .ok ()
    ∧ alookup (updateRow env0 [(("name"), Val.str ("a")), (("id"), Val.str ("x2"))]
        [("name")] stStale).2.cm.preexisting ("id") = some {PyType.str, PyType.int}
    ∧ seenValuesInColumn env0
        (updateRow env0 [(("name"), Val.str ("a")), (("id"), Val.str ("x2"))]
          [("name")] stStale).2.storage ("id") = {PyType.str}
    ∧ ({PyType.str, PyType.int} : Finset PyType) ≠ {PyType.str} := by
  decide

/-- C6 amended: for a tracked column, the insert, bulk-insert and update
paths only ever add entries to the seen-set (stale entries for overwritten
values are never removed, so the set can strictly exceed the tags present
in the stored column), and only the delete path removes entries,
best-effort, for the records matching its predicate. -/
theorem C6_amended_seen_set_monotone (env : Env) (st : TableState) (row : Record)
    (keys : List String) (rows : List Record) (flt : List (String × Val)) (fail : Bool)
    (c : String) (s : Finset PyType)
    (h : alookup st.cm.preexisting c = some s) :
    (∃ s', alookup (insertOne env row st).2.cm.preexisting c = some s' ∧ s ⊆ s')
    ∧ (∃ s', alookup (updateRow env row keys st).2.cm.preexisting c = some s' ∧ s ⊆ s')
    ∧ (∃ s', alookup (insertMany env rows st).2.cm.preexisting c = some s' ∧ s ⊆ s')
    ∧ (∃ s', alookup (deleteRows env flt fail st).state.cm.preexisting c = some s'
        ∧ s' ⊆ s) := by
  refine ⟨?_, ?_, ?_, ?_⟩
  · obtain ⟨s', h1, h2⟩ := updateUniqLoop_superset (parseRecordType env row) c st.cm s h
    cases hu : updateUniqueness env row st.cm with
    | mk res cm' =>
      have h1' : alookup cm'.preexisting c = some s' := by
        have heq : (updateUniqueness env row st.cm).2 = cm' := by rw [hu]
        rw [← heq]
        exact h1
      cases res with
      | ok u => exact ⟨s', by simpa [insertOne, hu] using h1', h2⟩
      | error e => exact ⟨s', by simpa [insertOne, hu] using h1', h2⟩
  · obtain ⟨s', h1, h2⟩ := updateUniqLoop_superset (parseRecordType env row) c st.cm s h
    cases hu : updateUniqueness env row st.cm with
    | mk res cm' =>
      have h1' : alookup cm'.preexisting c = some s' := by
        have heq : (updateUniqueness env row st.cm).2 = cm' := by rw [hu]
        rw [← heq]
        exact h1
      cases res with
      | ok u => exact ⟨s', by simpa [updateRow, hu] using h1', h2⟩
      | error e => exact ⟨s', by simpa [updateRow, hu] using h1', h2⟩
  · obtain ⟨s', h1, h2⟩ := updateUniqAll_superset env rows c st.cm s h
    cases hu : updateUniqAll env rows st.cm with
    | mk res cm' =>
      have h1' : alookup cm'.preexisting c = some s' := by
        have heq : (updateUniqAll env rows st.cm).2 = cm' := by rw [hu]
        rw [← heq]
        exact h1
      cases res with
      | ok u => exact ⟨s', by simpa [insertMany, hu] using h1', h2⟩
      | error e => exact ⟨s', by simpa [insertMany, hu] using h1', h2⟩
  · rw [deleteRows_state_cm]
    obtain ⟨s', h1, h2⟩ :=
      removeFold_subset env (st.storage.filter (matchesFilter flt)) c st.cm s h
    exact ⟨s', by simpa [removeAllSeen] using h1, h2⟩

theorem C6_amended_seen_set_monotone_witness :
    alookup stStale.cm.preexisting ("id") = some {PyType.int}
    ∧ ((∃ s', alookup (insertOne env0 [(("u9"), Val.str ("z9"))] stStale).2.cm.preexisting
          ("id") = some s' ∧ {PyType.int} ⊆ s')
    ∧ (∃ s', alookup (updateRow env0 [(("u9"), Val.str ("z9"))] [("u9")]
          stStale).2.cm.preexisting ("id") = some s' ∧ {PyType.int} ⊆ s')
    ∧ (∃ s', alookup (insertMany env0 [] stStale).2.cm.preexisting ("id") = some s'
          ∧ {PyType.int} ⊆ s')
    ∧ (∃ s', alookup (deleteRows env0 [] false stStale).state.cm.preexisting ("id") = some s'
          ∧ s' ⊆ {PyType.int})) :=
  ⟨by decide,
   C6_amended_seen_set_monotone env0 stStale [(("u9"), Val.str ("z9"))] [("u9")] [] [] false
     ("id") {PyType.int} (by decide)⟩

/-- C8: deleting all records whose tracked column holds the value `v`
vacates `v`'s classification from that column's seen-set (the delete path
removes it before delegating the removal), so a subsequent insert of a
record carrying `v` raises no uniqueness violation and is delegated to
storage. -/
theorem C8_delete_reconciliation (env : Env) (st : TableState) (k : String) (rawv nv : Val)
    (hnorm : normalizeValue env rawv = some nv)
    (htrk : (alookup st.cm.preexisting k).isSome)
    (hex : ∃ r ∈ st.storage, alookup r k = some rawv) :
    (∃ s', alookup (deleteRows env [(k, rawv)] false st).state.cm.preexisting k = some s'
        ∧ pyTypeOf nv ∉ s')
    ∧ (insertOne env [(k, rawv)] (deleteRows env [(k, rawv)] false st).state).1 = .ok ()
    ∧ (insertOne env [(k, rawv)] (deleteRows env [(k, rawv)] false st).state).2.storage
        = (deleteRows env [(k, rawv)] false st).state.storage ++ [[(k, rawv)]] := by
  obtain ⟨r0, hr0, hlk0⟩ := hex
  have hmemflt : r0 ∈ st.storage.filter (matchesFilter [(k, rawv)]) := by
    rw [List.mem_filter]
    refine ⟨hr0, ?_⟩
    simp [matchesFilter, hlk0]
  have hfield : (k, pyTypeOf nv) ∈ parseRecordType env r0 :=
    mem_parseRecordType (alookup_mem hlk0) hnorm
  have hkills := removeFold_kills env (st.storage.filter (matchesFilter [(k, rawv)]))
    k (pyTypeOf nv) ⟨r0, hmemflt, hfield⟩ st.cm htrk
  have hsome := removeFold_isSome env (st.storage.filter (matchesFilter [(k, rawv)]))
    k st.cm htrk
  obtain ⟨s', hs'⟩ := Option.isSome_iff_exists.mp hsome
  have hnot := hkills s' hs'
  have hs'' : alookup (deleteRows env [(k, rawv)] false st).state.cm.preexisting k
      = some s' := by
    rw [deleteRows_state_cm]
    simpa [removeAllSeen] using hs'
  have h1 := updateUniqueness_fresh env k rawv nv
    (deleteRows env [(k, rawv)] false st).state.cm s' hnorm hs'' hnot
  exact ⟨⟨s', hs'', hnot⟩, by simp [insertOne, h1], by simp [insertOne, h1]⟩

theorem C8_delete_reconciliation_witness :
    normalizeValue env0 (Val.str ("1")) = some (Val.int 1)
    ∧ (alookup stDel.cm.preexisting ("id")).isSome = true
    ∧ (∃ r ∈ stDel.storage, alookup r ("id") = some (Val.str ("1")))
    ∧ ((∃ s', alookup (deleteRows env0 [(("id"), Val.str ("1"))] false
          stDel).state.cm.preexisting ("id") = some s' ∧ pyTypeOf (Val.int 1) ∉ s')
    ∧ (insertOne env0 [(("id"), Val.str ("1"))]
        (deleteRows env0 [(("id"), Val.str ("1"))] false stDel).state).1 = .ok ()
    ∧ (insertOne env0 [(("id"), Val.str ("1"))]
        (deleteRows env0 [(("id"), Val.str ("1"))] false stDel).state).2.storage
        = (deleteRows env0 [(("id"), Val.str ("1"))] false stDel).state.storage
          ++ [[(("id"), Val.str ("1"))]]) :=
  ⟨by decide, by decide, ⟨[(("id"), Val.str ("1"))], by decide, by decide⟩,
   C8_delete_reconciliation env0 stDel ("id") (Val.str ("1")) (Val.int 1)
     (by decide) (by decide) ⟨[(("id"), Val.str ("1"))], by decide, by decide⟩⟩

/-- C5: evaluation of `_sanitize_multiple` at a concrete batch against a
column established as String.  With the toggle enabled, the returned
record holds `str(int)` — the string rendering of the *type object* — for
the widened column and a bare type object for the conflict-free column,
instead of the value's own string rendering and the preserved value; with
the toggle disabled the batch passes through unmodified. -/
theorem C5_sanitize_eval :
    (sanitizeMultiple env0 [[(("a"), Val.str ("5")), (("b"), Val.str ("y"))]] stSan).1
      = .ok [[(("a"), PyObj.val (.str ("<class \x27int\x27>"))), (("b"), PyObj.typ .str)]]
    ∧ PyObj.typ PyType.str ≠ PyObj.val (Val.str ("y"))
    ∧ PyObj.val (Val.str ("<class \x27int\x27>")) ≠ PyObj.val (Val.str ("5"))
    ∧ (sanitizeMultiple envOff [[(("a"), Val.str ("5")), (("b"), Val.str ("y"))]] stSan).1
      = .ok [[(("a"), PyObj.val (.str ("5"))), (("b"), PyObj.val (.str ("y")))]] := by
  decide

end XSchema
